import Mathlib

/-!
Verification of the Be-Weather-Ready pipeline core (`BeWeatherReady.py`).

The dataframe built in `update_forecast` is modelled as a list of rows.
Timestamps are minutes since an epoch (pandas `Timestamp`s in the feed's
local timezone); metric values are `Option ℚ`, with `none` standing for a
NaN cell (pandas comparisons against NaN are false, NaN is skipped by
column maxima, and `fillna`/`diff` propagate it).
-/

namespace BeWeatherReady

/-- One hourly weather sample: one row of the dataframe built at lines
236-242 of `BeWeatherReady.py`.  A `none` metric field models a NaN cell. -/
structure Obs where
  time : Int
  temperature : Option ℚ
  wind_speed : Option ℚ
  humidity : Option ℚ
  precipitation : Option ℚ
  deriving DecidableEq, Repr

/-- Calendar date of a timestamp (`.dt.date`), as whole days since the
epoch (floor division, so dates before the epoch are handled too). -/
def dateOf (t : Int) : Int := t.fdiv 1440

/-- Hour of day of a timestamp (`.dt.hour`), in `[0, 24)`. -/
def hourOf (t : Int) : Int := (t.emod 1440).fdiv 60

/-- Model of `df.drop_duplicates(subset=['Time'])` (line 151): keep the first row
for each `Time` value, in feed order.  `seen` holds the times already kept. -/
def dropDupAux (seen : List Int) : List Obs → List Obs
  | [] => []
  | o :: rest =>
    if o.time ∈ seen then dropDupAux seen rest
    else o :: dropDupAux (o.time :: seen) rest

/-- Model of `df.drop_duplicates(subset=['Time'])` with `keep='first'` (the default). -/
def drop_duplicates (l : List Obs) : List Obs := dropDupAux [] l

/-- Forward-fill carry: the last non-missing value seen in each column. -/
structure Carry where
  t : Option ℚ
  w : Option ℚ
  h : Option ℚ
  p : Option ℚ

/-- Forward-fill one cell: a missing cell takes the carried value. -/
def fcell (c v : Option ℚ) : Option ℚ :=
  match v with
  | some x => some x
  | none => c

/-- Column-wise forward fill, threading the per-column carry. -/
def ffillAux (c : Carry) : List Obs → List Obs
  | [] => []
  | o :: rest =>
    let t := fcell c.t o.temperature
    let w := fcell c.w o.wind_speed
    let h := fcell c.h o.humidity
    let p := fcell c.p o.precipitation
    { o with temperature := t, wind_speed := w, humidity := h, precipitation := p }
      :: ffillAux ⟨t, w, h, p⟩ rest

/-- Model of `df_clean.fillna(method='ffill')` (line 152): a missing value is
replaced by the most recent earlier value of the same column; a leading
missing value stays missing. -/
def ffill (l : List Obs) : List Obs := ffillAux ⟨none, none, none, none⟩ l

/-- Model of `clean_data` (lines 150-153): drop duplicate timestamps keeping the
first occurrence, then forward-fill.  No sort is performed. -/
def clean_data (l : List Obs) : List Obs := ffill (drop_duplicates l)

/-- Windowing (lines 249 and 253-254): keep the rows of the selected
calendar date, then, when `alert_start_hour` is set, keep only the rows
whose hour of day is strictly greater than it. -/
def window (s : List Obs) (target_date : Int) (alert_start_hour : Option Int) : List Obs :=
  let byDate := s.filter (fun o => dateOf o.time = target_date)
  match alert_start_hour with
  | none => byDate
  | some h => byDate.filter (fun o => h < hourOf o.time)

/-- The five alert kinds, in the order the scans appear at lines 329-343. -/
inductive AMetric
  | maxTemp
  | minTemp
  | maxWind
  | minHumidity
  | precip
  deriving DecidableEq, Repr

/-- Position of each threshold scan in the program text (lines 329-343). -/
def metricRank : AMetric → Nat
  | .maxTemp => 0
  | .minTemp => 1
  | .maxWind => 2
  | .minHumidity => 3
  | .precip => 4

/-- One threshold violation, as rendered into an alert line: the metric
kind, the observed value quoted in the message, and the row's time. -/
structure AlertEvent where
  metric : AMetric
  value : Option ℚ
  time : Int
  deriving DecidableEq, Repr

/-- The observation field quoted in the alert message of each kind. -/
def valueOf : AMetric → Obs → Option ℚ
  | .maxTemp, o => o.temperature
  | .minTemp, o => o.temperature
  | .maxWind, o => o.wind_speed
  | .minHumidity, o => o.humidity
  | .precip, o => o.precipitation

/-- NaN-aware `>` (pandas: any comparison against NaN is false). -/
def optGT (v : Option ℚ) (thr : ℚ) : Bool :=
  match v with
  | some x => thr < x
  | none => false

/-- NaN-aware `<` (pandas: any comparison against NaN is false). -/
def optLT (v : Option ℚ) (thr : ℚ) : Bool :=
  match v with
  | some x => x < thr
  | none => false

/-- One per-threshold scan: the rows of `df_24h` passing the comparison,
in series order, each rendered as one alert line tagged `m`. -/
def alertScan (s : List Obs) (m : AMetric) (test : Obs → Bool) : List AlertEvent :=
  (s.filter test).map (fun o => ⟨m, valueOf m o, o.time⟩)

/-- The five optional thresholds read from the input controls. -/
structure Thresholds where
  max_temp : Option ℚ
  min_temp : Option ℚ
  max_wind : Option ℚ
  min_humidity : Option ℚ
  precip_threshold : Option ℚ
  deriving DecidableEq, Repr

/-- One conditional scan: skipped (no lines) when the threshold is unset. -/
def chunk (s : List Obs) (m : AMetric) (thr : Option ℚ) (test : ℚ → Obs → Bool) :
    List AlertEvent :=
  match thr with
  | none => []
  | some v => alertScan s m (test v)

/-- Alert evaluation (lines 328-343): five independent scans over the
windowed series, their results appended in program order. -/
def evaluateAlerts (s : List Obs) (th : Thresholds) : List AlertEvent :=
  chunk s .maxTemp th.max_temp (fun v o => optGT o.temperature v)
    ++ chunk s .minTemp th.min_temp (fun v o => optLT o.temperature v)
    ++ chunk s .maxWind th.max_wind (fun v o => optGT o.wind_speed v)
    ++ chunk s .minHumidity th.min_humidity (fun v o => optLT o.humidity v)
    ++ chunk s .precip th.precip_threshold (fun v o => optGT o.precipitation v)

/-- Number of alert lines of one kind produced by one evaluation. -/
def alertCount (s : List Obs) (th : Thresholds) (m : AMetric) : Nat :=
  (evaluateAlerts s th).countP (fun e => e.metric = m)

/-- Insertion step of the time sort. -/
def insertByTime (o : Obs) : List Obs → List Obs
  | [] => [o]
  | b :: rest => if o.time ≤ b.time then o :: b :: rest else b :: insertByTime o rest

/-- Model of `sort_values("Time")` (line 351).  Timestamps are unique in every
series this is applied to (the window of a deduplicated series), so every
comparison sort produces the same list; insertion sort is used here. -/
def sortByTime : List Obs → List Obs
  | [] => []
  | o :: rest => insertByTime o (sortByTime rest)

/-- Model of `col.diff().abs()` (lines 352-354), with the leading NaN dropped: the
absolute differences of adjacent entries, `none` when either neighbour is
NaN.  (The leading NaN of `diff` is never the column maximum, so dropping
it preserves the `max`.) -/
def adjDiffs : List (Option ℚ) → List (Option ℚ)
  | [] => []
  | [_] => []
  | a :: b :: rest =>
    (match a, b with
     | some x, some y => some |y - x|
     | _, _ => none) :: adjDiffs (b :: rest)

/-- Model of `Series.max()` with the default `skipna`: `none` iff all entries NaN. -/
def maxOpt (l : List (Option ℚ)) : Option ℚ :=
  l.foldl
    (fun acc v =>
      match acc, v with
      | none, v => v
      | some a, none => some a
      | some a, some b => some (max a b)) none

/-- The three metrics the summary widget ranges over (lines 352-354). -/
inductive ChangeMetric
  | temperature
  | wind_speed
  | humidity
  deriving DecidableEq, Repr

/-- Lines 349-351: restrict the windowed series to the trailing hour
(`Time >= now - 1 hour`), then sort by time. -/
def lastHourSorted (w : List Obs) (now : Int) : List Obs :=
  sortByTime (w.filter (fun o => now - 60 ≤ o.time))

/-- The per-metric `max_change` entries (lines 352-356). -/
def metricDiffMax (w : List Obs) (now : Int) : ChangeMetric → Option ℚ
  | .temperature => maxOpt (adjDiffs ((lastHourSorted w now).map Obs.temperature))
  | .wind_speed => maxOpt (adjDiffs ((lastHourSorted w now).map Obs.wind_speed))
  | .humidity => maxOpt (adjDiffs ((lastHourSorted w now).map Obs.humidity))

/-- Model of `max_change.idxmax()` (line 357): the label of the first non-NaN entry
attaining the maximum, in the column order temperature, wind, humidity;
`none` (NaN) when every entry is NaN. -/
def idxmax3 (t w h : Option ℚ) : Option ChangeMetric :=
  match maxOpt [t, w, h] with
  | none => none
  | some m =>
    if t = some m then some .temperature
    else if w = some m then some .wind_speed
    else some .humidity

/-- The summary widget text, kept structurally: either the default
"No significant changes in last hour." or the metric and magnitude that
are interpolated into the message. -/
inductive Summary
  | noChange
  | changed (m : ChangeMetric) (magnitude : ℚ)
  deriving DecidableEq, Repr

/-- Lines 349-367: the summary-widget computation.  The guard
`if biggest_change_value and biggest_change_value > 0` keeps the default
text when the overall max is NaN (truthy but not `> 0`) or `0.0` (falsy);
otherwise the message for `idxmax` is rendered with the max magnitude. -/
def summarize (w : List Obs) (now : Int) : Summary :=
  match maxOpt [metricDiffMax w now .temperature, metricDiffMax w now .wind_speed,
      metricDiffMax w now .humidity] with
  | none => .noChange
  | some v =>
    if 0 < v then
      match idxmax3 (metricDiffMax w now .temperature) (metricDiffMax w now .wind_speed)
          (metricDiffMax w now .humidity) with
      | some m => .changed m v
      | none => .noChange
    else .noChange

/-- The temperature-unit selector value (`"C"` or `"F"`). -/
inductive TempUnit
  | C
  | F
  deriving DecidableEq, Repr

/-- Conversion `F = C * 9/5 + 32` (lines 250 and 376). -/
def toFahrenheit (c : ℚ) : ℚ := c * 9 / 5 + 32

/-- One row of the hourly report table (lines 370-378). -/
structure ReportRow where
  time : Int
  temp : Option ℚ
  wind : Option ℚ
  humidity : Option ℚ
  precip : Option ℚ
  deriving DecidableEq, Repr

/-- Lines 370-378: one table row per windowed observation; the temperature
column is converted to Fahrenheit when that unit is selected, otherwise
passed through in Celsius. -/
def buildRows (w : List Obs) (unit : TempUnit) : List ReportRow :=
  w.map (fun o =>
    ⟨o.time,
     (match unit with
      | .C => o.temperature
      | .F => o.temperature.map toFahrenheit),
     o.wind_speed, o.humidity, o.precipitation⟩)

/-- The displayed result bundle of one invocation. -/
structure Bundle where
  alerts : List AlertEvent
  summary : Summary
  rows : List ReportRow
  deriving DecidableEq, Repr

/-- The pure core of `update_forecast` (lines 236-383): clean the raw
series, window it to the selected date and optional start hour, then
evaluate alerts, summarize the trailing hour, and build the report rows,
all over the same windowed series. -/
def updateForecast (raw : List Obs) (target_date : Int) (alert_start_hour : Option Int)
    (th : Thresholds) (unit : TempUnit) (now : Int) : Bundle :=
  let cleaned := clean_data raw
  let w := window cleaned target_date alert_start_hour
  { alerts := evaluateAlerts w th
    summary := summarize w now
    rows := buildRows w unit }

/-- The `save_raw_data` filepath (lines 146-147); `ts` is the formatted
`%Y%m%d_%H%M%S` write timestamp, `os.path.join` inserts `/`. -/
def rawFilePath (city ts : String) : String :=
  "raw_weather_data/" ++ city ++ "_raw_" ++ ts ++ ".csv"

/-- The `save_clean_data` filepath (lines 156-157). -/
def cleanFilePath (city ts : String) : String :=
  "cleaned_weather_data/" ++ city ++ "_cleaned_" ++ ts ++ ".csv"

/-- The `save_daily_report` filepath (lines 161-162); `dateStr` is the
formatted `%Y%m%d` write date - no hour, minute or second component. -/
def reportFilePath (city dateStr : String) : String :=
  "weather_reports/" ++ city ++ "_hourly_report_" ++ dateStr ++ ".csv"

/-- A directory of snapshot files, most recent write first. -/
def Store (α : Type) : Type := List (String × α)

/-- Model of `df.to_csv(filepath)`: a full overwrite of the file at `filepath`. -/
def storeWrite (path : String) (content : α) (st : Store α) : Store α :=
  (path, content) :: st

/-- Reading a path back: the most recent write to it wins. -/
def storeRead (path : String) (st : Store α) : Option α :=
  (List.find? (fun e => e.1 = path) st).map (fun e => e.2)

/-- Model of `save_daily_report(city_upper, df_table)` (lines 160-163), with the
write-date string made explicit. -/
def save_daily_report (city dateStr : String) (rows : List ReportRow)
    (st : Store (List ReportRow)) : Store (List ReportRow) :=
  storeWrite (reportFilePath city dateStr) rows st

/-- Spec-side comparator for §4.1 (dedup policy), written from the spec's
words: keep the first occurrence of each timestamp in feed order, and
discard the later duplicates. -/
def spec_keepFirstTimes : List Int → List Int
  | [] => []
  | t :: rest => t :: spec_keepFirstTimes (rest.filter (fun u => u ≠ t))
termination_by l => l.length
decreasing_by
  simp only [List.length_cons]
  exact Nat.lt_succ_of_le (List.length_filter_le _ _)

/-- NaN-aware `≤` on per-metric maxima: an absent maximum is below every
present one. -/
def optLe : Option ℚ → Option ℚ → Bool
  | none, _ => true
  | some _, none => false
  | some a, some b => a ≤ b

/-- Spec-side comparator for §4.4, written from the spec's words: the
metric with the greatest per-metric maximum, ties resolved by the fixed
priority temperature, then wind_speed, then humidity; `none` when every
maximum is absent. -/
def spec_select (t w h : Option ℚ) : Option ChangeMetric :=
  if t ≠ none ∧ optLe w t ∧ optLe h t then some .temperature
  else if w ≠ none ∧ optLe t w ∧ optLe h w then some .wind_speed
  else if h ≠ none ∧ optLe t h ∧ optLe w h then some .humidity
  else none

/-- Spec-side summarizer shape for §4.4: the spec's selection rule
(`spec_select`) combined with the spec's no-change conditions, over the
same restricted trailing-hour maxima as the code. -/
def spec_summarize (w : List Obs) (now : Int) : Summary :=
  match maxOpt [metricDiffMax w now .temperature, metricDiffMax w now .wind_speed,
      metricDiffMax w now .humidity],
    spec_select (metricDiffMax w now .temperature) (metricDiffMax w now .wind_speed)
      (metricDiffMax w now .humidity) with
  | some v, some m => if 0 < v then .changed m v else .noChange
  | _, _ => .noChange

/-! ## Lemmas about cleaning -/

theorem map_time_ffillAux (c : Carry) (l : List Obs) :
    (ffillAux c l).map Obs.time = l.map Obs.time := by
  induction l generalizing c with
  | nil => rfl
  | cons o rest ih => simp [ffillAux, ih]

theorem map_time_ffill (l : List Obs) : (ffill l).map Obs.time = l.map Obs.time :=
  map_time_ffillAux _ l

theorem fcell_fcell (c v : Option ℚ) : fcell c (fcell c v) = fcell c v := by
  cases v <;> cases c <;> rfl

theorem ffillAux_idem (l : List Obs) : ∀ c : Carry, ffillAux c (ffillAux c l) = ffillAux c l := by
  induction l with
  | nil => intro c; rfl
  | cons o rest ih =>
    intro c
    simp only [ffillAux, fcell_fcell]
    exact congrArg _ (ih _)

theorem ffill_idem (l : List Obs) : ffill (ffill l) = ffill l :=
  ffillAux_idem l _

theorem dropDupAux_sublist (l : List Obs) : ∀ seen, (dropDupAux seen l).Sublist l := by
  induction l with
  | nil => intro seen; simp [dropDupAux]
  | cons o rest ih =>
    intro seen
    simp only [dropDupAux]
    split
    · exact (ih seen).trans (List.sublist_cons_self o rest)
    · exact (ih _).cons₂ o

theorem dropDupAux_times_nodup (l : List Obs) : ∀ seen,
    ((dropDupAux seen l).map Obs.time).Nodup ∧
      ∀ t ∈ (dropDupAux seen l).map Obs.time, t ∉ seen := by
  induction l with
  | nil => intro seen; simp [dropDupAux]
  | cons o rest ih =>
    intro seen
    simp only [dropDupAux]
    split
    · refine ⟨(ih seen).1, (ih seen).2⟩
    · rename_i hns
      obtain ⟨hnd, hmem⟩ := ih (o.time :: seen)
      refine ⟨?_, ?_⟩
      · simp only [List.map_cons, List.nodup_cons]
        exact ⟨fun hmem2 => (hmem _ hmem2) (List.mem_cons_self _ _), hnd⟩
      · intro t ht
        simp only [List.map_cons, List.mem_cons] at ht
        rcases ht with rfl | ht
        · exact hns
        · exact fun hts => (hmem t ht) (List.mem_cons_of_mem _ hts)

theorem dropDupAux_eq_self (l : List Obs) : ∀ seen,
    (l.map Obs.time).Nodup → (∀ t ∈ l.map Obs.time, t ∉ seen) →
      dropDupAux seen l = l := by
  induction l with
  | nil => intro seen _ _; rfl
  | cons o rest ih =>
    intro seen hnd hmem
    simp only [List.map_cons, List.nodup_cons] at hnd
    have hno : o.time ∉ seen := hmem _ (by simp)
    simp only [dropDupAux, if_neg hno]
    congr 1
    refine ih _ hnd.2 ?_
    intro t ht hts
    rcases List.mem_cons.1 hts with rfl | hts2
    · exact hnd.1 ht
    · exact hmem t (List.mem_cons_of_mem _ ht) hts2

theorem map_time_dropDupAux (l : List Obs) : ∀ seen,
    (dropDupAux seen l).map Obs.time
      = spec_keepFirstTimes ((l.map Obs.time).filter (fun t => t ∉ seen)) := by
  induction l with
  | nil => intro seen; simp [dropDupAux, spec_keepFirstTimes]
  | cons o rest ih =>
    intro seen
    by_cases h : o.time ∈ seen
    · simp only [dropDupAux, if_pos h, List.map_cons, List.filter_cons]
      simp only [h, not_true_eq_false, decide_False, if_false]
      exact ih seen
    · simp only [dropDupAux, if_neg h, List.map_cons, List.filter_cons]
      simp only [h, not_false_eq_true, decide_True, if_true]
      simp only [spec_keepFirstTimes]
      rw [ih (o.time :: seen), List.filter_filter]
      congr 1
      congr 1
      apply List.filter_congr
      intro t _
      simp [List.mem_cons, not_or, Bool.and_comm]

/-- The function `clean_data` does not change the sequence of kept timestamps relative
to plain first-occurrence deduplication. -/
theorem map_time_clean_data (l : List Obs) :
    (clean_data l).map Obs.time = spec_keepFirstTimes (l.map Obs.time) := by
  rw [clean_data, map_time_ffill, drop_duplicates, map_time_dropDupAux]
  congr 1
  simp

theorem clean_data_times_nodup (l : List Obs) : ((clean_data l).map Obs.time).Nodup := by
  rw [clean_data, map_time_ffill]
  exact (dropDupAux_times_nodup l []).1

/-- C7: `clean_data` keeps exactly the first occurrence in feed order of
each timestamp (its timestamp sequence is the spec's keep-first
deduplication of the input's timestamp sequence), so the output has at
most one observation per timestamp. -/
theorem C7_clean_keeps_first_occurrence (S : List Obs) :
    (clean_data S).map Obs.time = spec_keepFirstTimes (S.map Obs.time)
      ∧ ∀ t : Int, (clean_data S).countP (fun o => o.time = t) ≤ 1 := by
  refine ⟨map_time_clean_data S, fun t => ?_⟩
  have hnd := clean_data_times_nodup S
  have hc : (clean_data S).countP (fun o => o.time = t)
      = ((clean_data S).map Obs.time).countP (fun u => u = t) := by
    rw [List.countP_map]
    rfl
  rw [hc]
  have := List.nodup_iff_count_le_one.1 hnd t
  rw [List.count] at this
  calc ((clean_data S).map Obs.time).countP (fun u => u = t)
      = ((clean_data S).map Obs.time).countP (fun u => u == t) := by
        apply List.countP_congr
        intro u _
        simp
    _ ≤ 1 := this

/-- C8: cleaning is idempotent. -/
theorem C8_clean_idempotent (S : List Obs) : clean_data (clean_data S) = clean_data S := by
  have h1 : drop_duplicates (clean_data S) = clean_data S := by
    apply dropDupAux_eq_self
    · exact clean_data_times_nodup S
    · simp
  rw [clean_data, h1, clean_data, ffill_idem]

/-! ## C1: ordering of the cleaned series -/

/-- C1 counterexample: `clean_data` performs no sort, so for an input
whose two rows arrive out of order the output timestamps are not
ascending. -/
theorem C1_counterexample_clean_not_sorted :
    ¬ ((clean_data
        [⟨1440, some 1, some 1, some 1, some 0⟩, ⟨0, some 2, some 2, some 2, some 0⟩]).map
          Obs.time).Pairwise (fun a b => a ≤ b) := by
  decide

/-- C1 amended: `clean_data` preserves the input order of the kept rows,
so its output is sorted by timestamp ascending whenever the input is. -/
theorem C1_clean_preserves_sorted (S : List Obs) :
    ((S.map Obs.time).Pairwise (fun a b => a ≤ b)) →
      (((clean_data S).map Obs.time).Pairwise (fun a b => a ≤ b)) := by
  intro hs
  rw [clean_data, map_time_ffill]
  exact hs.sublist ((dropDupAux_sublist S []).map Obs.time)

/-- Witness for the amended C1 at a concrete sorted input. -/
theorem C1_clean_preserves_sorted_witness :
    (([⟨0, some 2, some 2, some 2, some 0⟩,
        ⟨60, some 1, some 1, some 1, some 0⟩] : List Obs).map Obs.time).Pairwise
        (fun a b => a ≤ b)
    ∧ ((clean_data
        [⟨0, some 2, some 2, some 2, some 0⟩, ⟨60, some 1, some 1, some 1, some 0⟩]).map
          Obs.time).Pairwise (fun a b => a ≤ b) :=
  ⟨by decide, C1_clean_preserves_sorted _ (by decide)⟩

/-! ## C2: snapshot file naming -/

/-- C2 counterexample: two invocations for the same location on the same
write date produce the same report filepath, so the second report snapshot
replaces the first (reading the path back yields only the second rows). -/
theorem C2_counterexample_report_overwritten :
    storeRead (reportFilePath "TOKYO" "20261012")
        (save_daily_report "TOKYO" "20261012" []
          (save_daily_report "TOKYO" "20261012" [⟨0, some 1, some 1, some 1, some 0⟩] []))
      = some []
    ∧ ([] : List ReportRow) ≠ [⟨0, some 1, some 1, some 1, some 0⟩] := by
  exact ⟨rfl, by decide⟩

theorem string_append_inj_middle (p t1 t2 s : String)
    (h : p ++ t1 ++ s = p ++ t2 ++ s) : t1 = t2 := by
  have hd : p.data ++ (t1.data ++ s.data) = p.data ++ (t2.data ++ s.data) := by
    have := congrArg String.data h
    simpa [List.append_assoc] using this
  have hd2 := List.append_cancel_left hd
  exact String.ext (List.append_cancel_right hd2)

/-- C2 amended: raw and cleaned snapshot paths are keyed by the location
and the second-resolution write timestamp, so they differ exactly when the
timestamp strings differ; the report path is keyed by the location and the
write date only, so a second report write for the same location and date
replaces the first. -/
theorem C2_snapshot_paths :
    (∀ city t1 t2 : String, rawFilePath city t1 = rawFilePath city t2 ↔ t1 = t2)
    ∧ (∀ city t1 t2 : String, cleanFilePath city t1 = cleanFilePath city t2 ↔ t1 = t2)
    ∧ (∀ (city d : String) (r1 r2 : List ReportRow) (st : Store (List ReportRow)),
        storeRead (reportFilePath city d)
            (save_daily_report city d r2 (save_daily_report city d r1 st))
          = some r2) := by
  refine ⟨?_, ?_, ?_⟩
  · intro city t1 t2
    constructor
    · intro h
      exact string_append_inj_middle ("raw_weather_data/" ++ city ++ "_raw_") t1 t2 ".csv"
        (by simpa [rawFilePath, String.append_assoc] using h)
    · intro h
      rw [h]
  · intro city t1 t2
    constructor
    · intro h
      exact string_append_inj_middle ("cleaned_weather_data/" ++ city ++ "_cleaned_") t1 t2
        ".csv" (by simpa [cleanFilePath, String.append_assoc] using h)
    · intro h
      rw [h]
  · intro city d r1 r2 st
    simp [save_daily_report, storeWrite, storeRead, List.find?]

/-- Witness for the amended C2: raw paths for two distinct write
timestamps differ, and a re-written report path reads back the new rows. -/
theorem C2_snapshot_paths_witness :
    rawFilePath "TOKYO" "20260101_000000" ≠ rawFilePath "TOKYO" "20260101_000001"
    ∧ storeRead (reportFilePath "TOKYO" "20260101")
        (save_daily_report "TOKYO" "20260101" []
          (save_daily_report "TOKYO" "20260101" [⟨0, some 1, some 1, some 1, some 0⟩] []))
      = some [] :=
  ⟨fun h => absurd ((C2_snapshot_paths.1 "TOKYO" _ _).1 h) (by decide),
    C2_snapshot_paths.2.2 "TOKYO" "20260101" [⟨0, some 1, some 1, some 1, some 0⟩] [] []⟩

/-! ## C4, C9: alert evaluation -/

theorem mem_chunk_metric {s : List Obs} {m : AMetric} {thr : Option ℚ}
    {t : ℚ → Obs → Bool} {e : AlertEvent} (h : e ∈ chunk s m thr t) : e.metric = m := by
  cases thr with
  | none => simp [chunk] at h
  | some v =>
    simp only [chunk, alertScan, List.mem_map] at h
    obtain ⟨o, _, rfl⟩ := h
    rfl

theorem pairwise_rank_chunk (s : List Obs) (m : AMetric) (thr : Option ℚ)
    (t : ℚ → Obs → Bool) :
    (chunk s m thr t).Pairwise (fun e1 e2 => metricRank e1.metric ≤ metricRank e2.metric) :=
  List.pairwise_of_forall_mem_list fun a ha b hb => by
    rw [mem_chunk_metric ha, mem_chunk_metric hb]

theorem evaluateAlerts_pairwise_rank (s : List Obs) (th : Thresholds) :
    (evaluateAlerts s th).Pairwise
      (fun e1 e2 => metricRank e1.metric ≤ metricRank e2.metric) := by
  rw [evaluateAlerts, List.append_assoc, List.append_assoc, List.append_assoc]
  refine List.pairwise_append.2 ⟨pairwise_rank_chunk _ _ _ _, ?_, ?_⟩
  · refine List.pairwise_append.2 ⟨pairwise_rank_chunk _ _ _ _, ?_, ?_⟩
    · refine List.pairwise_append.2 ⟨pairwise_rank_chunk _ _ _ _, ?_, ?_⟩
      · refine List.pairwise_append.2
          ⟨pairwise_rank_chunk _ _ _ _, pairwise_rank_chunk _ _ _ _, ?_⟩
        intro a ha b hb
        rw [mem_chunk_metric ha, mem_chunk_metric hb]
        decide
      · intro a ha b hb
        simp only [List.mem_append] at hb
        rw [mem_chunk_metric ha]
        rcases hb with hb | hb
        · rw [mem_chunk_metric hb]; decide
        · rw [mem_chunk_metric hb]; decide
    · intro a ha b hb
      simp only [List.mem_append] at hb
      rw [mem_chunk_metric ha]
      rcases hb with hb | hb | hb
      · rw [mem_chunk_metric hb]; decide
      · rw [mem_chunk_metric hb]; decide
      · rw [mem_chunk_metric hb]; decide
  · intro a ha b hb
    simp only [List.mem_append] at hb
    rw [mem_chunk_metric ha]
    rcases hb with hb | hb | hb | hb
    · rw [mem_chunk_metric hb]; decide
    · rw [mem_chunk_metric hb]; decide
    · rw [mem_chunk_metric hb]; decide
    · rw [mem_chunk_metric hb]; decide

theorem filter_chunk_self (s : List Obs) (m : AMetric) (thr : Option ℚ)
    (t : ℚ → Obs → Bool) :
    (chunk s m thr t).filter (fun e => e.metric = m) = chunk s m thr t := by
  rw [List.filter_eq_self]
  intro e he
  simp [mem_chunk_metric he]

theorem filter_chunk_ne (s : List Obs) {m m' : AMetric} (hne : m' ≠ m) (thr : Option ℚ)
    (t : ℚ → Obs → Bool) :
    (chunk s m' thr t).filter (fun e => e.metric = m) = [] := by
  rw [List.filter_eq_nil_iff]
  intro e he
  simp [mem_chunk_metric he, hne]

theorem map_time_chunk_sublist (s : List Obs) (m : AMetric) (thr : Option ℚ)
    (t : ℚ → Obs → Bool) :
    ((chunk s m thr t).map AlertEvent.time).Sublist (s.map Obs.time) := by
  cases thr with
  | none => simp [chunk]
  | some v =>
    simp only [chunk, alertScan, List.map_map]
    have h2 : (AlertEvent.time ∘ fun o : Obs => (⟨m, valueOf m o, o.time⟩ : AlertEvent))
        = Obs.time := rfl
    rw [h2]
    exact (List.filter_sublist s).map Obs.time

/-- C4: alert events are grouped by threshold kind in the program's scan
order (ranks never decrease along the output), within one kind they appear
in series order (their times form a subsequence of the series times), and
the output is not a single time-ordered merge (there is an evaluation
whose output times are not ascending). -/
theorem C4_alert_group_order :
    (∀ (s : List Obs) (th : Thresholds),
        (evaluateAlerts s th).Pairwise
          (fun e1 e2 => metricRank e1.metric ≤ metricRank e2.metric)
        ∧ ∀ m : AMetric,
            (((evaluateAlerts s th).filter (fun e => e.metric = m)).map
              AlertEvent.time).Sublist (s.map Obs.time))
    ∧ ¬ (∀ (s : List Obs) (th : Thresholds),
          (evaluateAlerts s th).Pairwise (fun e1 e2 => e1.time ≤ e2.time)) := by
  constructor
  · intro s th
    refine ⟨evaluateAlerts_pairwise_rank s th, ?_⟩
    intro m
    rw [evaluateAlerts]
    simp only [List.filter_append]
    cases m with
    | maxTemp =>
      rw [filter_chunk_self, filter_chunk_ne s (by decide), filter_chunk_ne s (by decide),
        filter_chunk_ne s (by decide), filter_chunk_ne s (by decide)]
      simp only [List.append_nil]
      exact map_time_chunk_sublist s _ _ _
    | minTemp =>
      rw [filter_chunk_self, filter_chunk_ne s (by decide), filter_chunk_ne s (by decide),
        filter_chunk_ne s (by decide), filter_chunk_ne s (by decide)]
      simp only [List.append_nil, List.nil_append]
      exact map_time_chunk_sublist s _ _ _
    | maxWind =>
      rw [filter_chunk_self, filter_chunk_ne s (by decide), filter_chunk_ne s (by decide),
        filter_chunk_ne s (by decide), filter_chunk_ne s (by decide)]
      simp only [List.append_nil, List.nil_append]
      exact map_time_chunk_sublist s _ _ _
    | minHumidity =>
      rw [filter_chunk_self, filter_chunk_ne s (by decide), filter_chunk_ne s (by decide),
        filter_chunk_ne s (by decide), filter_chunk_ne s (by decide)]
      simp only [List.append_nil, List.nil_append]
      exact map_time_chunk_sublist s _ _ _
    | precip =>
      rw [filter_chunk_self, filter_chunk_ne s (by decide), filter_chunk_ne s (by decide),
        filter_chunk_ne s (by decide), filter_chunk_ne s (by decide)]
      simp only [List.nil_append]
      exact map_time_chunk_sublist s _ _ _
  · intro h
    have h2 := h [⟨0, some (-5), some 0, some 50, some 0⟩, ⟨60, some 40, some 0, some 50, some 0⟩]
      ⟨some 30, some 0, none, none, none⟩
    exact absurd h2 (by decide)

/-- Witness for C4 at a concrete evaluation. -/
theorem C4_alert_group_order_witness :
    (evaluateAlerts [⟨0, some 35, some 0, some 50, some 0⟩] ⟨some 30, none, none, none, none⟩).Pairwise
      (fun e1 e2 => metricRank e1.metric ≤ metricRank e2.metric) :=
  (C4_alert_group_order.1 _ _).1

theorem countP_chunk_ne (s : List Obs) {m m' : AMetric} (hne : m' ≠ m) (thr : Option ℚ)
    (t : ℚ → Obs → Bool) :
    (chunk s m' thr t).countP (fun e => e.metric = m) = 0 := by
  rw [List.countP_eq_length_filter, filter_chunk_ne s hne, List.length_nil]

theorem countP_chunk_self (s : List Obs) (m : AMetric) (v : ℚ) (t : ℚ → Obs → Bool) :
    (chunk s m (some v) t).countP (fun e => e.metric = m) = (s.filter (t v)).length := by
  rw [List.countP_eq_length_filter, filter_chunk_self]
  simp [chunk, alertScan]

theorem alertCount_maxTemp (s : List Obs) (th : Thresholds) (v : ℚ) :
    alertCount s { th with max_temp := some v } .maxTemp
      = (s.filter (fun o => optGT o.temperature v)).length := by
  rw [alertCount, evaluateAlerts]
  simp only [List.countP_append]
  rw [countP_chunk_self, countP_chunk_ne s (by decide), countP_chunk_ne s (by decide),
    countP_chunk_ne s (by decide), countP_chunk_ne s (by decide)]
  omega

theorem alertCount_minHumidity (s : List Obs) (th : Thresholds) (v : ℚ) :
    alertCount s { th with min_humidity := some v } .minHumidity
      = (s.filter (fun o => optLT o.humidity v)).length := by
  rw [alertCount, evaluateAlerts]
  simp only [List.countP_append]
  rw [countP_chunk_self, countP_chunk_ne s (by decide), countP_chunk_ne s (by decide),
    countP_chunk_ne s (by decide), countP_chunk_ne s (by decide)]
  omega

/-- C9: raising the `max_temp` threshold never increases the number of
max_temp alert events; lowering the `min_humidity` threshold never
increases the number of min_humidity alert events. -/
theorem C9_threshold_monotonicity (s : List Obs) (th : Thresholds) (a b : ℚ) :
    (a ≤ b →
      alertCount s { th with max_temp := some b } .maxTemp
        ≤ alertCount s { th with max_temp := some a } .maxTemp)
    ∧ (b ≤ a →
      alertCount s { th with min_humidity := some b } .minHumidity
        ≤ alertCount s { th with min_humidity := some a } .minHumidity) := by
  constructor
  · intro hab
    rw [alertCount_maxTemp, alertCount_maxTemp, ← List.countP_eq_length_filter,
      ← List.countP_eq_length_filter]
    apply List.countP_mono_left
    intro o _ ho
    cases htemp : o.temperature with
    | none => simp [optGT, htemp] at ho
    | some x =>
      simp only [optGT, htemp, decide_eq_true_eq] at ho ⊢
      linarith
  · intro hba
    rw [alertCount_minHumidity, alertCount_minHumidity, ← List.countP_eq_length_filter,
      ← List.countP_eq_length_filter]
    apply List.countP_mono_left
    intro o _ ho
    cases hh : o.humidity with
    | none => simp [optLT, hh] at ho
    | some x =>
      simp only [optLT, hh, decide_eq_true_eq] at ho ⊢
      linarith

/-- Witness for C9 at concrete thresholds (raising 30 to 40, and lowering
40 to 30). -/
theorem C9_threshold_monotonicity_witness :
    (alertCount [⟨0, some 35, some 0, some 20, some 0⟩]
        ⟨some 40, none, none, none, none⟩ .maxTemp
      ≤ alertCount [⟨0, some 35, some 0, some 20, some 0⟩]
        ⟨some 30, none, none, none, none⟩ .maxTemp)
    ∧ (alertCount [⟨0, some 35, some 0, some 20, some 0⟩]
        ⟨none, none, none, some 30, none⟩ .minHumidity
      ≤ alertCount [⟨0, some 35, some 0, some 20, some 0⟩]
        ⟨none, none, none, some 40, none⟩ .minHumidity) :=
  ⟨(C9_threshold_monotonicity [⟨0, some 35, some 0, some 20, some 0⟩]
      ⟨none, none, none, none, none⟩ 30 40).1 (by norm_num),
    (C9_threshold_monotonicity [⟨0, some 35, some 0, some 20, some 0⟩]
      ⟨none, none, none, none, none⟩ 40 30).2 (by norm_num)⟩

/-! ## C5: windowing boundary -/

theorem mem_window_some (s : List Obs) (d h : Int) (o : Obs) :
    o ∈ window s d (some h) ↔ o ∈ s ∧ dateOf o.time = d ∧ h < hourOf o.time := by
  simp only [window, List.mem_filter, decide_eq_true_eq, and_assoc]

/-- C5: the `alert_start_hour` bound is an exclusive lower bound: a row is
windowed iff it lies on the target date and its hour of day is strictly
greater than `h`; in particular, a row at hour exactly `h` is excluded and
a row of the target date at hour `h + 1` is included. -/
theorem C5_start_hour_exclusive (s : List Obs) (d h : Int) (o : Obs) :
    (o ∈ window s d (some h) ↔ o ∈ s ∧ dateOf o.time = d ∧ h < hourOf o.time)
    ∧ (hourOf o.time = h → o ∉ window s d (some h))
    ∧ (o ∈ s → dateOf o.time = d → hourOf o.time = h + 1 → o ∈ window s d (some h)) := by
  refine ⟨mem_window_some s d h o, ?_, ?_⟩
  · intro hh hmem
    have := ((mem_window_some s d h o).1 hmem).2.2
    omega
  · intro hs hd hh
    exact (mem_window_some s d h o).2 ⟨hs, hd, by omega⟩

/-- Witness for C5: with `start_hour = 5`, the 05:00 row of the target
date is dropped and the 06:00 row is kept. -/
theorem C5_start_hour_exclusive_witness :
    ((⟨300, some 1, some 1, some 1, some 0⟩ : Obs)
        ∉ window [⟨300, some 1, some 1, some 1, some 0⟩, ⟨360, some 2, some 2, some 2, some 0⟩]
          0 (some 5))
    ∧ ((⟨360, some 2, some 2, some 2, some 0⟩ : Obs)
        ∈ window [⟨300, some 1, some 1, some 1, some 0⟩, ⟨360, some 2, some 2, some 2, some 0⟩]
          0 (some 5)) :=
  ⟨(C5_start_hour_exclusive _ 0 5 _).2.1 (by decide),
    (C5_start_hour_exclusive _ 0 5 _).2.2 (by decide) (by decide) (by decide)⟩

/-! ## C10: alerts are unit-independent -/

/-- C10: alert evaluation always compares the Celsius temperature column;
two invocations differing only in the selected temperature unit produce
the same alert-event sequence. -/
theorem C10_alerts_unit_independent (raw : List Obs) (d : Int) (sh : Option Int)
    (th : Thresholds) (now : Int) :
    (updateForecast raw d sh th .C now).alerts = (updateForecast raw d sh th .F now).alerts :=
  rfl

/-! ## C3: empty windowed series -/

theorem evaluateAlerts_nil (th : Thresholds) : evaluateAlerts [] th = [] := by
  rw [evaluateAlerts]
  cases th.max_temp <;> cases th.min_temp <;> cases th.max_wind <;>
    cases th.min_humidity <;> cases th.precip_threshold <;> rfl

theorem storeRead_storeWrite (path : String) (c : α) (st : Store α) :
    storeRead path (storeWrite path c st) = some c := by
  simp [storeRead, storeWrite, List.find?]

/-- C3: when the windowed series is empty the pipeline still completes:
no alert lines, the default "no significant change" summary, an empty
report-row sequence, and the report snapshot write succeeds (the store
afterwards holds the empty row list at the report path). -/
theorem C3_empty_window_graceful (raw : List Obs) (d : Int) (sh : Option Int)
    (th : Thresholds) (u : TempUnit) (now : Int) (city ds : String)
    (st : Store (List ReportRow)) :
    window (clean_data raw) d sh = [] →
      (updateForecast raw d sh th u now).alerts = []
      ∧ (updateForecast raw d sh th u now).summary = .noChange
      ∧ (updateForecast raw d sh th u now).rows = []
      ∧ storeRead (reportFilePath city ds)
          (save_daily_report city ds (updateForecast raw d sh th u now).rows st) = some [] := by
  intro hw
  have hb : updateForecast raw d sh th u now
      = { alerts := evaluateAlerts [] th, summary := summarize [] now,
          rows := buildRows [] u } := by
    rw [updateForecast]
    simp only [hw]
  rw [hb]
  refine ⟨evaluateAlerts_nil th, rfl, rfl, ?_⟩
  have hrows : buildRows [] u = [] := rfl
  rw [hrows, save_daily_report, storeRead_storeWrite]

/-- Witness for C3: an empty raw feed windows to the empty series. -/
theorem C3_empty_window_graceful_witness :
    (updateForecast [] 0 none ⟨none, none, none, none, none⟩ .C 0).alerts = []
    ∧ (updateForecast [] 0 none ⟨none, none, none, none, none⟩ .C 0).summary = .noChange
    ∧ (updateForecast [] 0 none ⟨none, none, none, none, none⟩ .C 0).rows = []
    ∧ storeRead (reportFilePath "TOKYO" "20261012")
        (save_daily_report "TOKYO" "20261012"
          (updateForecast [] 0 none ⟨none, none, none, none, none⟩ .C 0).rows []) = some [] :=
  C3_empty_window_graceful [] 0 none ⟨none, none, none, none, none⟩ .C 0 "TOKYO" "20261012" []
    (by decide)

/-! ## C6: the change summarizer -/

theorem max2_cases (a b v : ℚ) (hv : max a b = v) :
    (a = v ∨ b = v) ∧ a ≤ v ∧ b ≤ v := by
  subst hv
  exact ⟨(max_choice a b).imp Eq.symm Eq.symm, le_max_left a b, le_max_right a b⟩

theorem max3_cases (a b c v : ℚ) (hv : max (max a b) c = v) :
    (a = v ∨ b = v ∨ c = v) ∧ a ≤ v ∧ b ≤ v ∧ c ≤ v := by
  subst hv
  obtain ⟨hor, hab, hc⟩ := max2_cases (max a b) c _ rfl
  refine ⟨?_, le_trans (le_max_left a b) hab, le_trans (le_max_right a b) hab, hc⟩
  rcases hor with hor | hor
  · rcases max_choice a b with hm | hm
    · exact Or.inl (by rw [← hor, hm])
    · exact Or.inr (Or.inl (by rw [← hor, hm]))
  · exact Or.inr (Or.inr hor)

theorem maxOpt3_none (t w h : Option ℚ) :
    maxOpt [t, w, h] = none ↔ t = none ∧ w = none ∧ h = none := by
  cases t <;> cases w <;> cases h <;> simp [maxOpt, List.foldl]

theorem maxOpt3_some (t w h : Option ℚ) (v : ℚ) (hm : maxOpt [t, w, h] = some v) :
    (t = some v ∨ w = some v ∨ h = some v)
      ∧ optLe t (some v) = true ∧ optLe w (some v) = true ∧ optLe h (some v) = true := by
  cases t with
  | none =>
    cases w with
    | none =>
      cases h with
      | none => simp [maxOpt, List.foldl] at hm
      | some c =>
        simp only [maxOpt, List.foldl, Option.some.injEq] at hm
        subst hm
        simp [optLe]
    | some b =>
      cases h with
      | none =>
        simp only [maxOpt, List.foldl, Option.some.injEq] at hm
        subst hm
        simp [optLe]
      | some c =>
        simp only [maxOpt, List.foldl, Option.some.injEq] at hm
        obtain ⟨hor, hb, hc⟩ := max2_cases b c v hm
        simp only [optLe, Option.some.injEq, decide_eq_true_eq]
        tauto
  | some a =>
    cases w with
    | none =>
      cases h with
      | none =>
        simp only [maxOpt, List.foldl, Option.some.injEq] at hm
        subst hm
        simp [optLe]
      | some c =>
        simp only [maxOpt, List.foldl, Option.some.injEq] at hm
        obtain ⟨hor, ha, hc⟩ := max2_cases a c v hm
        simp only [optLe, Option.some.injEq, decide_eq_true_eq]
        tauto
    | some b =>
      cases h with
      | none =>
        simp only [maxOpt, List.foldl, Option.some.injEq] at hm
        obtain ⟨hor, ha, hb⟩ := max2_cases a b v hm
        simp only [optLe, Option.some.injEq, decide_eq_true_eq]
        tauto
      | some c =>
        simp only [maxOpt, List.foldl, Option.some.injEq] at hm
        obtain ⟨hor, ha, hb, hc⟩ := max3_cases a b c v hm
        simp only [optLe, Option.some.injEq, decide_eq_true_eq]
        tauto

/-- When the overall maximum is attained, `idxmax` computes exactly the
spec's greatest-with-priority selection. -/
theorem idxmax3_eq_spec_select (t w h : Option ℚ) (v : ℚ)
    (hm : maxOpt [t, w, h] = some v) : idxmax3 t w h = spec_select t w h := by
  obtain ⟨hmem, hlt, hlw, hlh⟩ := maxOpt3_some t w h v hm
  have hidx : idxmax3 t w h
      = if t = some v then some ChangeMetric.temperature
        else if w = some v then some ChangeMetric.wind_speed
        else some ChangeMetric.humidity := by
    rw [idxmax3, hm]
  rw [hidx]
  by_cases ht : t = some v
  · rw [if_pos ht, spec_select,
      if_pos ⟨by simp [ht], by rw [ht]; exact hlw, by rw [ht]; exact hlh⟩]
  · have hc1 : ¬(t ≠ none ∧ optLe w t = true ∧ optLe h t = true) := by
      rintro ⟨htn, hwt, hht⟩
      cases hta : t with
      | none => exact htn hta
      | some a =>
        rw [hta] at hlt hwt hht
        simp only [optLe, decide_eq_true_eq] at hlt
        have hav : a = v := by
          rcases hmem with hx | hx | hx
          · exact absurd hx ht
          · rw [hx] at hwt
            simp only [optLe, decide_eq_true_eq] at hwt
            linarith
          · rw [hx] at hht
            simp only [optLe, decide_eq_true_eq] at hht
            linarith
        exact ht (by rw [hta, hav])
    rw [if_neg ht, spec_select, if_neg hc1]
    by_cases hw : w = some v
    · rw [if_pos hw,
        if_pos ⟨by simp [hw], by rw [hw]; exact hlt, by rw [hw]; exact hlh⟩]
    · have hc2 : ¬(w ≠ none ∧ optLe t w = true ∧ optLe h w = true) := by
        rintro ⟨hwn, htw, hhw⟩
        cases hwa : w with
        | none => exact hwn hwa
        | some b =>
          rw [hwa] at hlw htw hhw
          simp only [optLe, decide_eq_true_eq] at hlw
          have hbv : b = v := by
            rcases hmem with hx | hx | hx
            · rw [hx] at htw
              simp only [optLe, decide_eq_true_eq] at htw
              linarith
            · exact absurd hx hw
            · rw [hx] at hhw
              simp only [optLe, decide_eq_true_eq] at hhw
              linarith
          exact hw (by rw [hwa, hbv])
      have hh : h = some v := by
        rcases hmem with hx | hx | hx
        · exact absurd hx ht
        · exact absurd hx hw
        · exact hx
      rw [if_neg hw, if_neg hc2,
        if_pos ⟨by simp [hh], by rw [hh]; exact hlt, by rw [hh]; exact hlw⟩]

theorem summarize_eq_spec_summarize (w : List Obs) (now : Int) :
    summarize w now = spec_summarize w now := by
  rw [summarize, spec_summarize]
  cases hm : maxOpt [metricDiffMax w now .temperature, metricDiffMax w now .wind_speed,
      metricDiffMax w now .humidity] with
  | none =>
    cases spec_select (metricDiffMax w now .temperature) (metricDiffMax w now .wind_speed)
        (metricDiffMax w now .humidity) <;> rfl
  | some v =>
    rw [idxmax3_eq_spec_select _ _ _ v hm]
    cases spec_select (metricDiffMax w now .temperature) (metricDiffMax w now .wind_speed)
        (metricDiffMax w now .humidity) with
    | none => by_cases hv : 0 < v <;> simp [hv]
    | some m => rfl

theorem adjDiffs_short {l : List (Option ℚ)} (h : l.length < 2) : adjDiffs l = [] := by
  cases l with
  | nil => rfl
  | cons a rest =>
    cases rest with
    | nil => rfl
    | cons b r2 => simp at h; omega

/-- C6: the summarizer agrees with the spec's selection rule (greatest
per-metric trailing-hour maximum difference, ties broken temperature,
then wind_speed, then humidity), and returns the "no significant change"
summary when the greatest maximum is absent or zero, or when fewer than
two observations survive the trailing-hour restriction. -/
theorem C6_change_summary (w : List Obs) (now : Int) :
    summarize w now = spec_summarize w now
    ∧ ((maxOpt [metricDiffMax w now .temperature, metricDiffMax w now .wind_speed,
          metricDiffMax w now .humidity] = none
        ∨ maxOpt [metricDiffMax w now .temperature, metricDiffMax w now .wind_speed,
          metricDiffMax w now .humidity] = some 0) → summarize w now = .noChange)
    ∧ ((lastHourSorted w now).length < 2 → summarize w now = .noChange) := by
  refine ⟨summarize_eq_spec_summarize w now, ?_, ?_⟩
  · intro hz
    rw [summarize]
    rcases hz with hz | hz
    · rw [hz]
    · rw [hz]
      norm_num
  · intro hlen
    have ht : metricDiffMax w now .temperature = none := by
      rw [metricDiffMax, adjDiffs_short (by simp [hlen])]
      rfl
    have hw : metricDiffMax w now .wind_speed = none := by
      rw [metricDiffMax, adjDiffs_short (by simp [hlen])]
      rfl
    have hh : metricDiffMax w now .humidity = none := by
      rw [metricDiffMax, adjDiffs_short (by simp [hlen])]
      rfl
    rw [summarize, ht, hw, hh]
    rfl

/-- Witness for C6: two observations an hour apart with identical values
(the spec's scenario) give the "no significant change" summary. -/
theorem C6_change_summary_witness :
    summarize [⟨0, some 18, some 5, some 50, some 0⟩, ⟨60, some 18, some 5, some 50, some 0⟩]
      60 = .noChange :=
  (C6_change_summary [⟨0, some 18, some 5, some 50, some 0⟩,
      ⟨60, some 18, some 5, some 50, some 0⟩] 60).2.1 (Or.inr (by with_unfolding_all decide))

end BeWeatherReady
